import Mathlib

/-!
Verification of the signer-mcp-server core: a shallow embedding of the
session singleton (`src/signer-wrapper.ts`), the normalization utilities
(`src/utils.ts`), the local key-derivation signer (`LocalSigner`), the
custodial signers (`TurnkeySigner`, `DfnsSigner`) and the threshold-MPC
adapter (`SodotSigner`).  External effects (environment variables, HTTP
calls to the cosigning vertices) are passed in explicitly; machine strings
are Lean `String`s manipulated through their underlying character lists,
with the JavaScript string primitives the source relies on
(`String.prototype.split`, `replace` with a string pattern — first
occurrence only —, `parseInt`, `startsWith`, `trim`) reproduced faithfully
below.
-/

namespace SignerMcp

/-- The apostrophe character (U+0027), used as the hardened-derivation
marker in BIP44 paths. -/
def apos : Char := Char.ofNat 39

/-- JavaScript string whitespace recognised by `parseInt` (space, tab,
line feed, vertical tab, form feed, carriage return, no-break space). -/
def isJsWs (c : Char) : Bool :=
  c.toNat = 32 || c.toNat = 9 || c.toNat = 10 || c.toNat = 11 ||
  c.toNat = 12 || c.toNat = 13 || c.toNat = 160

/-- Decimal digit test (0-9). -/
def isDigitChar (c : Char) : Bool :=
  48 ≤ c.toNat && c.toNat ≤ 57

/-- Hexadecimal digit test (0-9, a-f, A-F). -/
def isHexDigitChar (c : Char) : Bool :=
  isDigitChar c || (97 ≤ c.toNat && c.toNat ≤ 102) || (65 ≤ c.toNat && c.toNat ≤ 70)

/-- Numeric value of a (decimal or hexadecimal) digit character. -/
def jsDigitVal (c : Char) : Nat :=
  if isDigitChar c then c.toNat - 48
  else if 97 ≤ c.toNat && c.toNat ≤ 102 then c.toNat - 87
  else if 65 ≤ c.toNat && c.toNat ≤ 70 then c.toNat - 55
  else 0

/-- Digit test for the radix (10 or 16) used by `parseInt`. -/
def isRadixDigit (radix : Nat) (c : Char) : Bool :=
  if radix = 16 then isHexDigitChar c else isDigitChar c

/-- Accumulate the numeric value of a digit string in the given radix. -/
def digitsToNat (radix : Nat) (l : List Char) : Nat :=
  l.foldl (fun acc c => acc * radix + jsDigitVal c) 0

/-- Model of JavaScript `String.prototype.split` with a one-character
separator: `"a/b".split("/") = ["a","b"]`, `"".split("/") = [""]`. -/
def jsSplitChar (sep : Char) : List Char → List (List Char)
  | [] => [[]]
  | c :: rest =>
    match jsSplitChar sep rest with
    | [] => [[c]]
    | h :: t => if c = sep then [] :: h :: t else (c :: h) :: t

/-- Model of JavaScript `String.prototype.replace` with string arguments:
only the first occurrence of `pat` is replaced by `repl`. -/
def listReplaceFirst (pat repl : List Char) : List Char → List Char
  | [] => if pat.isEmpty then repl else []
  | c :: rest =>
    if pat.isPrefixOf (c :: rest) then repl ++ (c :: rest).drop pat.length
    else c :: listReplaceFirst pat repl rest

/-- `String`-level wrapper for `listReplaceFirst`. -/
def jsReplaceFirst (s pat repl : String) : String :=
  ⟨listReplaceFirst pat.data repl.data s.data⟩

/-- Model of JavaScript `String.prototype.startsWith`. -/
def jsStartsWith (s pre : String) : Bool :=
  pre.data.isPrefixOf s.data

/-- Model of JavaScript `String.prototype.trim`. -/
def jsTrim (s : String) : String :=
  ⟨((s.data.dropWhile isJsWs).reverse.dropWhile isJsWs).reverse⟩

/-- Model of JavaScript `parseInt` with no radix argument: skip leading
whitespace, read an optional sign, detect a `0x`/`0X` prefix (radix 16,
else 10), then take the longest prefix of digits in that radix; `none`
models the `NaN` result when no digit is found.  (JavaScript loses
precision above 2^53; none of the verified inputs reach that range.) -/
def jsParseIntList (l : List Char) : Option Int :=
  let l1 := l.dropWhile isJsWs
  let signAndRest : Int × List Char :=
    match l1 with
    | c :: r => if c = '-' then (-1, r) else if c = '+' then (1, r) else (1, l1)
    | [] => (1, l1)
  let sign := signAndRest.1
  let l2 := signAndRest.2
  let radixAndRest : Nat × List Char :=
    if ['0', 'x'].isPrefixOf l2 || ['0', 'X'].isPrefixOf l2 then (16, l2.drop 2)
    else (10, l2)
  let radix := radixAndRest.1
  let l3 := radixAndRest.2
  let digits := l3.takeWhile (isRadixDigit radix)
  if digits.isEmpty then none
  else some (sign * Int.ofNat (digitsToNat radix digits))

/-- `String`-level wrapper for `jsParseIntList`. -/
def jsParseInt (s : String) : Option Int :=
  jsParseIntList s.data

/-- Model of JavaScript `Number.prototype.toString(16)` for non-negative
integers (lowercase hexadecimal). -/
def natToHex (n : Nat) : String :=
  ⟨Nat.toDigits 16 n⟩

/-! ## Schemas (`src/schemas.ts`) -/

/-- `CurveSchema = z.enum(["secp256k1", "ed25519", "stark"])`. -/
inductive Curve
  | secp256k1
  | ed25519
  | stark
deriving DecidableEq, BEq, Repr

/-- The string value carried by each `Curve` member at runtime. -/
def curveToString : Curve → String
  | .secp256k1 => "secp256k1"
  | .ed25519 => "ed25519"
  | .stark => "stark"

/-- `HashFunctionSchema = z.enum(["sha256", "keccak256", "sha512_256",
"pedersen", "none"])`. -/
inductive HashFunction
  | sha256
  | keccak256
  | sha512_256
  | pedersen
  | hnone
deriving DecidableEq, Repr

/-- The string value carried by each `HashFunction` member at runtime. -/
def hashFunctionToString : HashFunction → String
  | .sha256 => "sha256"
  | .keccak256 => "keccak256"
  | .sha512_256 => "sha512_256"
  | .pedersen => "pedersen"
  | .hnone => "none"

/-- `SignatureFormatSchema = z.enum(["rsv", "rs"])`. -/
inductive SignatureFormat
  | rs
  | rsv
deriving DecidableEq, Repr

/-- The string value carried by each `SignatureFormat` member at runtime. -/
def signatureFormatToString : SignatureFormat → String
  | .rs => "rs"
  | .rsv => "rsv"

/-- `SignerSpecSchema`: curve, hash function, signature format and
string-encoded BIP44 coin type. -/
structure SignerSpec where
  curve : Curve
  hashFunction : HashFunction
  signatureFormat : SignatureFormat
  coinType : String
deriving DecidableEq, Repr

/-- `SignerTypeSchema = z.enum(["DFNS", "LOCAL", "SODOT", "TURNKEY"])`. -/
inductive SignerType
  | DFNS
  | LOCAL
  | SODOT
  | TURNKEY
deriving DecidableEq, Repr

/-- The string value carried by each `SignerType` member at runtime. -/
def signerTypeToString : SignerType → String
  | .DFNS => "DFNS"
  | .LOCAL => "LOCAL"
  | .SODOT => "SODOT"
  | .TURNKEY => "TURNKEY"

/-! ## Utilities (`src/utils.ts`) -/

/-- The hardened-derivation marker string. -/
def hardenedMark : String := String.mk [apos]

/-- `isDerivationPath` from `src/utils.ts`: the path must start with
`m/`, have at least two segments after `m`, and each segment — after
removing the first apostrophe via `replace("'", "")` — must satisfy
`!isNaN(parseInt(seg)) && parseInt(seg) >= 0`. -/
def isDerivationPath (path : String) : Bool :=
  if !(jsStartsWith path "m/") then false
  else
    let segments := (jsSplitChar '/' path.data).drop 1
    if segments.length < 2 then false
    else segments.all fun seg =>
      match jsParseInt (jsReplaceFirst (String.mk seg) hardenedMark "") with
      | some n => decide (0 ≤ n)
      | none => false

/-- `getCoinTypeFromDerivationPath` from `src/utils.ts`: `null` (here
`none`) on an invalid path, otherwise `parseInt` of the third
`/`-separated component with its first apostrophe removed. -/
def getCoinTypeFromDerivationPath (path : String) : Option Int :=
  if isDerivationPath path then
    let segments := jsSplitChar '/' path.data
    jsParseInt (jsReplaceFirst (String.mk (segments.getD 2 [])) hardenedMark "")
  else none

/-- The `{r, s, v?}` raw-signature shape consumed by `extractSignature`. -/
structure RawSignature where
  r : String
  s : String
  v : Option String
deriving DecidableEq, Repr

/-- `sanitizeSignature` from `src/utils.ts`: `replace("0x", "")` on `r`,
`s` and the optional `v` (first occurrence only, as in JavaScript). -/
def sanitizeSignature (sig : RawSignature) : RawSignature :=
  { r := jsReplaceFirst sig.r "0x" ""
    s := jsReplaceFirst sig.s "0x" ""
    v := sig.v.map fun x => jsReplaceFirst x "0x" "" }

/-- `extractSignature` from `src/utils.ts`.  The `signatureFormat`
parameter is typed as the runtime string so that the `default` branch
(`throw new Error("Unsupported signature format: ...")`) is reachable, as
it is for a JavaScript caller; concatenating the absent `v` in the `rsv`
branch yields the text `undefined`, as `string + undefined` does. -/
def extractSignature (signatureFormat : String) (sig : RawSignature) :
    Except String String :=
  let ss := sanitizeSignature sig
  if signatureFormat = "rs" then Except.ok (ss.r ++ ss.s)
  else if signatureFormat = "rsv" then
    Except.ok (ss.r ++ ss.s ++ ss.v.getD "undefined")
  else Except.error ("Unsupported signature format: " ++ signatureFormat)

/-! ## Local signer (`src/signers/LocalSigner.ts`) -/

namespace LocalSigner

/-- `getCacheKey` from `LocalSigner`: the template string
`curve:coinType`. -/
def getCacheKey (spec : SignerSpec) : String :=
  curveToString spec.curve ++ ":" ++ spec.coinType

/-- The Stark curve order constant from `LocalSigner.getStarkPrivateKey`. -/
def starkOrder : Nat :=
  3618502788666131213697322783095070105526743751716087489154079457884512865583

/-- The arithmetic core of `LocalSigner.getStarkPrivateKey`: the SHA-256
digest of the BIP32-derived secp256k1 private key (an arbitrary
non-negative integer here, since the digest is produced by an external
library) is reduced modulo `order - 1` and incremented by 1. -/
def getStarkPrivateKeyValue (digest : Nat) : Nat :=
  digest % (starkOrder - 1) + 1

end LocalSigner

/-! ## Process configuration (`process.env`) -/

/-- The process environment: an association list from variable names to
string values (a variable set to the empty string is present). -/
abbrev Env := List (String × String)

/-- JavaScript truthiness of `process.env.X` (a `string | undefined`
value): `undefined` and the empty string are falsy. -/
def jsTruthy (o : Option String) : Bool :=
  match o with
  | some s => !(s == "")
  | none => false

/-- The environment variables required by `SodotSigner.isConfigValid`,
in the order the source's loop pushes them. -/
def sodotRequiredKeys : List String :=
  ["SODOT_VERTEX_URL_0", "SODOT_VERTEX_API_KEY_0",
   "SODOT_VERTEX_URL_1", "SODOT_VERTEX_API_KEY_1",
   "SODOT_VERTEX_URL_2", "SODOT_VERTEX_API_KEY_2"]

/-- The environment variables required by `TurnkeySigner.isConfigValid`. -/
def turnkeyRequiredKeys : List String :=
  ["TURNKEY_BASE_URL", "TURNKEY_API_PUBLIC_KEY", "TURNKEY_API_PRIVATE_KEY",
   "TURNKEY_ORGANIZATION_ID", "TURNKEY_WALLET_ID"]

/-- The environment variables required by `DfnsSigner.isConfigValid`. -/
def dfnsRequiredKeys : List String :=
  ["DFNS_CRED_ID", "DFNS_PRIVATE_KEY", "DFNS_APP_ID", "DFNS_AUTH_TOKEN",
   "DFNS_API_URL"]

/-- The static `isConfigValid` predicate of each signer class.  `SODOT`,
`TURNKEY` and `DFNS` test only key presence (`key in process.env`);
`LOCAL` tests `Boolean(process.env.SEED_PHRASE)`, so a present-but-empty
seed phrase is rejected.  The source predicates contain no throwing
construct; totality of this function is the model of "never throws". -/
def isConfigValid : SignerType → Env → Bool
  | .SODOT, env => sodotRequiredKeys.all fun k => (env.lookup k).isSome
  | .TURNKEY, env => turnkeyRequiredKeys.all fun k => (env.lookup k).isSome
  | .DFNS, env => dfnsRequiredKeys.all fun k => (env.lookup k).isSome
  | .LOCAL, env => jsTruthy (env.lookup "SEED_PHRASE")

/-- The error message thrown by each signer's constructor when its
configuration is incomplete. -/
def ctorErrorMsg : SignerType → String
  | .SODOT => "Missing required SODOT_* environment variables"
  | .TURNKEY => "Missing required TURNKEY_* environment variables"
  | .DFNS => "Missing required DFNS_* environment variables"
  | .LOCAL => "SEED_PHRASE is not set"

/-! ## Session singleton (`src/signer-wrapper.ts`) -/

namespace SignerWrapper

/-- The key order of the `signerConstructors` record in
`src/signer-wrapper.ts` (`Object.keys` preserves insertion order). -/
def supportedProviders : List SignerType :=
  [.SODOT, .TURNKEY, .DFNS, .LOCAL]

/-- `SignerWrapper.getAvailableProviders`: the source's `for` loop that
pushes each provider whose `isConfigValid()` returns true. -/
def getAvailableProviders (env : Env) : List SignerType :=
  supportedProviders.foldl
    (fun acc provider => if isConfigValid provider env then acc ++ [provider] else acc)
    []

/-- `SignerWrapper.connect`.  The singleton state is the kind of the
retained instance, or `none` when no instance exists.  When the state is
`none` the private constructor runs first: each signer's constructor
throws its configuration error exactly when `isConfigValid` is false, and
a thrown constructor aborts the assignment to `SignerWrapper.instance`,
leaving the state unchanged.  When an instance exists, `is(signerType)`
(an `instanceof` test against the four mutually unrelated signer classes,
hence a kind-equality test) decides between the silent no-op and the
conflict error naming the retained kind. -/
def connect (signerType : SignerType) (env : Env) (state : Option SignerType) :
    Except String Unit × Option SignerType :=
  match state with
  | Option.none =>
    if isConfigValid signerType env then (Except.ok (), some signerType)
    else (Except.error (ctorErrorMsg signerType), Option.none)
  | some existing =>
    if existing = signerType then (Except.ok (), some existing)
    else
      (Except.error ("Signer was already instanciated as " ++ signerTypeToString existing),
       some existing)

end SignerWrapper

/-! ## Custodial signer, Turnkey style (`src/signers/Turnkey.ts`) -/

namespace TurnkeySigner

/-- `keyForSpec` from `TurnkeySigner`: the template string
`curve-coinType`. -/
def keyForSpec (spec : SignerSpec) : String :=
  curveToString spec.curve ++ "-" ++ spec.coinType

/-- `convertAdamikCurveToTurnkeyCurve`: stark has no mapping and throws. -/
def convertAdamikCurveToTurnkeyCurve : Curve → Except String String
  | .secp256k1 => Except.ok "CURVE_SECP256K1"
  | .ed25519 => Except.ok "CURVE_ED25519"
  | c => Except.error ("Unsupported curve: " ++ curveToString c)

/-- One entry of the remote wallet-account list. -/
structure TurnkeyAccount where
  curve : String
  path : String
  addressFormat : String
  address : String
deriving DecidableEq, Repr

/-- The remote state observed by `TurnkeySigner.getPubkey`: the paginated
account list and the address a `createWalletAccounts` call would return. -/
structure TurnkeyWorld where
  accounts : List TurnkeyAccount
  createdAddress : String

/-- Model of JavaScript `Number(...)` restricted to the shapes reachable
here: optional-sign decimal strings (`NaN`, i.e. `none`, otherwise).
Only equality of the result against parsed coin types is observable in
the account-matching predicate below. -/
def jsNumber (s : String) : Option Int :=
  let l := s.data.dropWhile isJsWs
  let l := (l.reverse.dropWhile isJsWs).reverse
  match l with
  | [] => some 0
  | '-' :: r => if !r.isEmpty && r.all isDigitChar then some (-(digitsToNat 10 r : Int)) else none
  | '+' :: r => if !r.isEmpty && r.all isDigitChar then some (digitsToNat 10 r : Int) else none
  | _ => if l.all isDigitChar then some (digitsToNat 10 l) else none

/-- `TurnkeySigner.getPubkey`: cache hit returns the cached address;
otherwise the account list is scanned for a matching `(curve, coinType,
compressed-format)` account (the `===` comparison against a `null` or
`NaN` coin type is false), falling back to account creation.  The
resolved address is cached under `keyForSpec`. -/
def getPubkey (w : TurnkeyWorld) (cache : List (String × String)) (spec : SignerSpec) :
    Except String (String × List (String × String)) :=
  let cacheKey := keyForSpec spec
  match cache.lookup cacheKey with
  | some v => Except.ok (v, cache)
  | Option.none =>
    match convertAdamikCurveToTurnkeyCurve spec.curve with
    | Except.error e => Except.error e
    | Except.ok curve =>
      let coinType := jsNumber spec.coinType
      match w.accounts.find? (fun a =>
        a.curve == curve &&
        (match getCoinTypeFromDerivationPath a.path, coinType with
         | some b, some ct => b == ct
         | _, _ => false) &&
        a.addressFormat == "ADDRESS_FORMAT_COMPRESSED") with
      | some account => Except.ok (account.address, (cacheKey, account.address) :: cache)
      | Option.none => Except.ok (w.createdAddress, (cacheKey, w.createdAddress) :: cache)

end TurnkeySigner

/-! ## Custodial signer, Dfns style (`src/signers/Dfns.ts`) -/

namespace DfnsSigner

/-- `convertAdamikCurveToDfnsCurve`: every curve of the closed set has a
mapping, so the `default` throw is unreachable and the function is total. -/
def convertAdamikCurveToDfnsCurve : Curve → String
  | .stark => "KeyECDSAStark"
  | .ed25519 => "KeyEdDSA"
  | .secp256k1 => "KeyECDSA"

/-- One entry of the remote wallet list. -/
structure DfnsWallet where
  network : String
  id : String
deriving DecidableEq, Repr

/-- The remote state observed by `DfnsSigner`: the wallet list, the id a
`createWallet` call would return for a network, and each wallet's signing
public key. -/
structure DfnsWorld where
  wallets : List DfnsWallet
  createdId : String → String
  walletPubkey : String → String

/-- `DfnsSigner.getOrCreateWallet`: the `walletIdByCurve` cache is a
`Map<Curve, string>` — keyed by the curve alone, the coin type plays no
part.  On a miss the wallet list is scanned for the curve's network,
falling back to wallet creation; the resolved id is cached. -/
def getOrCreateWallet (w : DfnsWorld) (cache : List (Curve × String)) (curve : Curve) :
    String × List (Curve × String) :=
  match cache.lookup curve with
  | some id => (id, cache)
  | Option.none =>
    let network := convertAdamikCurveToDfnsCurve curve
    match w.wallets.find? (fun wl => wl.network == network) with
    | some wl => (wl.id, (curve, wl.id) :: cache)
    | Option.none => (w.createdId network, (curve, w.createdId network) :: cache)

/-- `DfnsSigner.formatPubkey`: for the stark curve, strip a `0x` prefix
(`/^0x/`, anchored) then all leading zeros (`/^0+/g`, anchored) and
re-prefix with `0x`; other curves pass through. -/
def formatPubkey (pubkey : String) (curve : Curve) : String :=
  if curve = .stark then
    ⟨'0' :: 'x' ::
      ((if ['0', 'x'].isPrefixOf pubkey.data then pubkey.data.drop 2 else pubkey.data).dropWhile
        (fun c => c = '0'))⟩
  else pubkey

/-- `DfnsSigner.getPubkey`: resolve the wallet for `spec.curve` (the coin
type is never consulted), fetch its signing key and normalize it. -/
def getPubkey (w : DfnsWorld) (cache : List (Curve × String)) (spec : SignerSpec) :
    String × List (Curve × String) :=
  let idAndCache := getOrCreateWallet w cache spec.curve
  (formatPubkey (w.walletPubkey idAndCache.1) spec.curve, idAndCache.2)

end DfnsSigner

/-! ## Local signer memoization (`src/signers/LocalSigner.ts`) -/

/-- The read-then-write discipline shared by every derivation cache in
`LocalSigner` (and by `TurnkeySigner.pubkeyCache`): return the cached
value on a hit, otherwise compute, store and return. -/
def memoLookup (cache : List (String × String)) (key : String) (compute : String) :
    String × List (String × String) :=
  match cache.lookup key with
  | some v => (v, cache)
  | Option.none => (compute, (key, compute) :: cache)

namespace LocalSigner

/-- `LocalSigner.getPubkey`: each curve branch consults its per-curve
cache under `getCacheKey spec` and otherwise derives a key pair with the
external cryptography libraries (abstracted as `derive`) and stores it.
The three per-curve maps are modelled as one map: `getCacheKey` embeds
the curve name, so entries of different branches can never collide. -/
def getPubkey (derive : SignerSpec → String) (cache : List (String × String))
    (spec : SignerSpec) : String × List (String × String) :=
  memoLookup cache (getCacheKey spec) (derive spec)

end LocalSigner

/-! ## Threshold-MPC signer (`src/signers/Sodot.ts`) -/

/-- The `SodotSignatureResponse` union: an ECDSA `{r, s, v, der}` record
or an EdDSA `{signature}` record. -/
inductive SodotSignatureResponse
  | rsv (r s : String) (v : Nat) (der : String)
  | single (signature : String)
deriving DecidableEq, Repr

/-- The vertex curve vocabulary (`"ecdsa" | "ed25519"`). -/
inductive SodotCurve
  | ecdsa
  | ed25519
deriving DecidableEq, Repr

/-- One HTTP request issued to a cosigning vertex, by vertex index. -/
inductive NetEvent
  | createRoom (vertexId : Nat)
  | keygenInit (vertexId : Nat)
  | keygenCall (vertexId : Nat)
  | signCall (vertexId : Nat)
  | derivePubkeyCall (vertexId : Nat)
deriving DecidableEq, Repr

/-- The remote state observed by `SodotSigner` during one operation: room
identifiers, each vertex's keygen-init result, each vertex's keygen HTTP
status and failure text, and each vertex's signing HTTP status and
response body. -/
structure SodotWorld where
  keygenRoomUuid : String
  initKeygenId : Nat → String
  initKeyId : Nat → String
  keygenStatus : Nat → Nat
  keygenFailText : Nat → String
  signRoomUuid : String
  signStatus : Nat → Nat
  signResponse : Nat → SodotSignatureResponse

namespace SodotSigner

/-- The fixed participant count. -/
def nParties : Nat := 3

/-- The fixed threshold. -/
def tThreshold : Nat := 2

/-- The in-memory key cache (`Map<string, string[]>`). -/
abbrev KeyCache := List (String × List String)

/-- `getKeyCacheKey`: the template string `${spec.curve}` — the curve
alone, the coin type is not part of the key. -/
def getKeyCacheKey (spec : SignerSpec) : String :=
  curveToString spec.curve

/-- `adamikCurveToSodotCurve`: stark has no mapping and throws. -/
def adamikCurveToSodotCurve : Curve → Except String SodotCurve
  | .ed25519 => Except.ok .ed25519
  | .secp256k1 => Except.ok .ecdsa
  | c => Except.error ("Unsupported curve: " ++ curveToString c)

/-- `adamikHashFunctionToSodotHashMethod`: for ed25519 the hash function
is ignored (`undefined` is returned); `sha512_256` and `pedersen` throw;
any other value passes through. -/
def adamikHashFunctionToSodotHashMethod (hashAlgo : HashFunction) (curve : Curve) :
    Except String (Option String) :=
  if curve = .ed25519 then Except.ok Option.none
  else if hashAlgo = .sha512_256 || hashAlgo = .pedersen then
    Except.error ("Unsupported hash algorithm: " ++ hashFunctionToString hashAlgo)
  else Except.ok (some (hashFunctionToString hashAlgo))

/-- The environment variable consulted for pre-provisioned key ids. -/
def keyIdsEnvVar (curve : Curve) : String :=
  if curve = Curve.secp256k1 then "SODOT_EXISTING_ECDSA_KEY_IDS"
  else "SODOT_EXISTING_ED25519_KEY_IDS"

/-- `keygenVertex`: create a room at vertex 0, run `keygenInit` on all
`n` vertices concurrently, then run the distributed keygen on all `n`
vertices concurrently (each receiving the other vertices' keygen ids).
All requests of a phase are issued (`Promise.all` starts every promise);
a non-200 keygen status makes the ceremony throw `Vertex i keygen
failed` — modelled with the lowest failing index standing for whichever
rejection `Promise.all` reports first.  On unanimous success the `n`
key ids from the init phase are returned. -/
def keygenVertex (w : SodotWorld) (_curve : SodotCurve) :
    Except String (List String) × List NetEvent :=
  let events := NetEvent.createRoom 0 :: (List.range nParties).map NetEvent.keygenInit ++
    (List.range nParties).map NetEvent.keygenCall
  match (List.range nParties).find? (fun i => !(w.keygenStatus i = 200)) with
  | some i =>
    (Except.error ("Vertex " ++ toString i ++ " keygen failed: " ++ w.keygenFailText i), events)
  | Option.none => (Except.ok ((List.range nParties).map w.initKeyId), events)

/-- `getOrGenerateKeyIds`: the initial `keyCache.get` read is dead — its
result is unconditionally overwritten.  If the curve's
`SODOT_EXISTING_*_KEY_IDS` variable is truthy it is split on commas,
trimmed, cached and returned with no network traffic; otherwise a full
keygen ceremony runs and its key ids are cached only if it succeeds. -/
def getOrGenerateKeyIds (env : Env) (w : SodotWorld) (cache : KeyCache) (spec : SignerSpec) :
    Except String (List String) × KeyCache × List NetEvent :=
  let cacheKey := getKeyCacheKey spec
  let envVar := env.lookup (keyIdsEnvVar spec.curve)
  if jsTruthy envVar then
    let keyIds := (jsSplitChar ',' (envVar.getD "").data).map fun l => jsTrim ⟨l⟩
    (Except.ok keyIds, (cacheKey, keyIds) :: cache, [])
  else
    match adamikCurveToSodotCurve spec.curve with
    | Except.error e => (Except.error e, cache, [])
    | Except.ok sodotCurve =>
      match keygenVertex w sodotCurve with
      | (Except.error e, events) => (Except.error e, cache, events)
      | (Except.ok keyIds, events) => (Except.ok keyIds, (cacheKey, keyIds) :: cache, events)

/-- The outcome of `signWithVertex` for vertex `i`: the parsed response
on HTTP 200, `undefined` (logged, not thrown) otherwise. -/
def signWithVertexResult (w : SodotWorld) (i : Nat) : Option SodotSignatureResponse :=
  if w.signStatus i = 200 then some (w.signResponse i) else Option.none

/-- The private `sign` method: create a fresh room at vertex 0, convert
the curve (the throw, for stark, happens after room creation), issue one
`signWithVertex` per key id concurrently, and return `signatures[0]` —
the first vertex's response only; other vertices' failures are ignored. -/
def sign (w : SodotWorld) (keyIds : List String) (curve : Curve) (_hashAlgo : Option String) :
    Except String (Option SodotSignatureResponse) × List NetEvent :=
  let roomEvents := [NetEvent.createRoom 0]
  match adamikCurveToSodotCurve curve with
  | Except.error e => (Except.error e, roomEvents)
  | Except.ok _ =>
    let signatures := (List.range keyIds.length).map (signWithVertexResult w)
    (Except.ok (match signatures with | [] => Option.none | s :: _ => s),
     roomEvents ++ (List.range keyIds.length).map NetEvent.signCall)

/-- `signTransaction`: resolve key ids (possibly running a keygen
ceremony), convert the hash function (throwing `Unsupported hash
algorithm` happens while evaluating the arguments of `this.sign`, before
the signing room is created), run the signing fan-out, fail with `Failed
to sign message with Vertex` when the first vertex's response is absent,
and otherwise serialize the response — directly for the `{signature}`
shape, through `extractSignature` with `v.toString(16)` for the
`{r, s, v, der}` shape. -/
def signTransaction (env : Env) (w : SodotWorld) (cache : KeyCache) (spec : SignerSpec)
    (_encodedMessage : String) : Except String String × KeyCache × List NetEvent :=
  match getOrGenerateKeyIds env w cache spec with
  | (Except.error e, cache2, events) => (Except.error e, cache2, events)
  | (Except.ok keyIds, cache2, events) =>
    match adamikHashFunctionToSodotHashMethod spec.hashFunction spec.curve with
    | Except.error e => (Except.error e, cache2, events)
    | Except.ok hashMethod =>
      match sign w keyIds spec.curve hashMethod with
      | (Except.error e, events2) => (Except.error e, cache2, events ++ events2)
      | (Except.ok Option.none, events2) =>
        (Except.error "Failed to sign message with Vertex", cache2, events ++ events2)
      | (Except.ok (some response), events2) =>
        match response with
        | .single s => (Except.ok s, cache2, events ++ events2)
        | .rsv r s v _ =>
          (extractSignature (signatureFormatToString spec.signatureFormat)
            ⟨r, s, some (natToHex v)⟩, cache2, events ++ events2)

/-- `SodotSigner.getPubkey`: resolve key ids through `getOrGenerateKeyIds`
(whose cache read is dead, so this may run a full keygen ceremony), then
ask vertex 0 to derive the public key of `keyIds[0]` over the path
`[44, Number(spec.coinType), 0, 0, 0]`.  The remote response — including
the source's `"pubkey" in json ? json.pubkey : json.compressed`
unwrapping — is abstracted as `derivePubkey`, a function of the key id
and of the path's coin-type component (`Number` modelled by `jsNumber`);
the curve conversion in the argument list throws for stark before the
fetch. -/
def getPubkey (derivePubkey : String → Option Int → String) (env : Env) (w : SodotWorld)
    (cache : KeyCache) (spec : SignerSpec) :
    Except String String × KeyCache × List NetEvent :=
  match getOrGenerateKeyIds env w cache spec with
  | (Except.error e, cache2, events) => (Except.error e, cache2, events)
  | (Except.ok keyIds, cache2, events) =>
    match adamikCurveToSodotCurve spec.curve with
    | Except.error e => (Except.error e, cache2, events)
    | Except.ok _ =>
      (Except.ok (derivePubkey (keyIds.headD "") (TurnkeySigner.jsNumber spec.coinType)),
       cache2, events ++ [NetEvent.derivePubkeyCall 0])

end SodotSigner

/-! ## Spec-side characterizations (for the refinement claims) -/

/-- Remove a trailing hardened marker from a path segment — the
specification's reading of "segment (hardened marker stripped)". -/
def stripHardenedSpec (seg : List Char) : List Char :=
  if seg.getLast? = some apos then seg.dropLast else seg

/-- The specification's reading of a valid path segment: after stripping
the hardened marker, a non-empty string of decimal digits. -/
def specSegmentOk (seg : List Char) : Bool :=
  let cl := stripHardenedSpec seg
  !cl.isEmpty && cl.all isDigitChar

/-- Modelled from the spec: "a path is valid iff it starts with `m/`,
has at least two segments after `m`, and every segment (hardened marker
stripped) parses as a non-negative integer". -/
def specDerivationPathValid (path : String) : Bool :=
  jsStartsWith path "m/" &&
  (let segments := (jsSplitChar '/' path.data).drop 1
   decide (2 ≤ segments.length) && segments.all specSegmentOk)

/-- Strip a literal `0x` prefix — the specification's reading of
"strips any `0x` prefix". -/
def strip0x (s : String) : String :=
  if ['0', 'x'].isPrefixOf s.data then ⟨s.data.drop 2⟩ else s

/-- A raw-signature component: hexadecimal digits, optionally preceded by
a `0x` prefix (the shape every backend feeds into `extractSignature`). -/
def isHexLike (s : String) : Bool :=
  (strip0x s).data.all isHexDigitChar

/-- The derivation path `m/44'/60'/0'/0/0` of the specification's
example, assembled characterwise. -/
def samplePath : String :=
  String.mk ['m', '/', '4', '4', apos, '/', '6', '0', apos, '/', '0', apos, '/', '0', '/', '0']

/-- The required configuration keys of each backend kind (for `LOCAL`,
the seed phrase consulted by `Boolean(process.env.SEED_PHRASE)`). -/
def requiredKeys : SignerType → List String
  | .SODOT => sodotRequiredKeys
  | .TURNKEY => turnkeyRequiredKeys
  | .DFNS => dfnsRequiredKeys
  | .LOCAL => ["SEED_PHRASE"]

/-! ## Concrete fixtures for witnesses and counterexamples -/

/-- A vertex world in which every request succeeds; the signing responses
are ECDSA `{r, s, v, der}` records. -/
def wAllOk : SodotWorld where
  keygenRoomUuid := "roomA"
  initKeygenId := fun i => "kg" ++ toString i
  initKeyId := fun i => "key" ++ toString i
  keygenStatus := fun _ => 200
  keygenFailText := fun _ => ""
  signRoomUuid := "roomB"
  signStatus := fun _ => 200
  signResponse := fun _ => .rsv "aa" "bb" 27 "dd"

/-- A vertex world in which vertex 1 fails the keygen phase. -/
def wKeygenFail1 : SodotWorld :=
  { wAllOk with
    keygenStatus := fun i => if i = 1 then 500 else 200
    keygenFailText := fun _ => "boom" }

/-- A vertex world in which only vertex 0 succeeds during signing. -/
def wPeer0Only : SodotWorld :=
  { wAllOk with signStatus := fun i => if i = 0 then 200 else 500 }

/-- A vertex world whose signing responses are EdDSA `{signature}`
records. -/
def wEdSingle : SodotWorld :=
  { wAllOk with signResponse := fun _ => .single "sig" }

/-- An environment pre-provisioning three ECDSA key ids. -/
def envEcdsaIds : Env := [("SODOT_EXISTING_ECDSA_KEY_IDS", "k0,k1,k2")]

/-- An environment pre-provisioning one ed25519 key id. -/
def envEdIds : Env := [("SODOT_EXISTING_ED25519_KEY_IDS", "k0")]

/-- A secp256k1 / sha256 / rsv signing spec for coin type 60. -/
def specSecpSha256 : SignerSpec := ⟨.secp256k1, .sha256, .rsv, "60"⟩

/-- A secp256k1 spec requesting the unimplemented sha512_256 digest. -/
def specSecpSha512 : SignerSpec := ⟨.secp256k1, .sha512_256, .rs, "0"⟩

/-- An ed25519 spec carrying the (ignored) sha512_256 hash function. -/
def specEdSha512 : SignerSpec := ⟨.ed25519, .sha512_256, .rs, "0"⟩

/-! ## Helper lemmas -/

theorem stringMk_data (s : String) : String.mk s.data = s := by
  cases s
  rfl

theorem isDigitChar_toNat {c : Char} (h : isDigitChar c = true) :
    48 ≤ c.toNat ∧ c.toNat ≤ 57 := by
  simpa [isDigitChar, Bool.and_eq_true, decide_eq_true_eq] using h

theorem isDigitChar_not_ws {c : Char} (h : isDigitChar c = true) : isJsWs c = false := by
  have hn := isDigitChar_toNat h
  simp only [isJsWs, Bool.or_eq_false_iff, decide_eq_false_iff_not]
  omega

theorem isDigitChar_ne_char {c : Char} (h : isDigitChar c = true) {d : Char}
    (hd : d.toNat < 48 ∨ 57 < d.toNat) : c ≠ d := by
  intro he
  have hn := isDigitChar_toNat h
  rw [he] at hn
  omega

theorem isHexDigitChar_ne_x {c : Char} (h : isHexDigitChar c = true) :
    c ≠ 'x' ∧ c ≠ 'X' := by
  constructor <;> intro he <;> rw [he] at h <;> exact absurd h (by decide)

theorem jsParseIntList_digits {l : List Char} (hne : l ≠ [])
    (hd : ∀ c ∈ l, isDigitChar c = true) :
    jsParseIntList l = some (Int.ofNat (digitsToNat 10 l)) := by
  obtain ⟨c, rest, rfl⟩ : ∃ c rest, l = c :: rest := by
    cases l with
    | nil => exact absurd rfl hne
    | cons c rest => exact ⟨c, rest, rfl⟩
  have hc : isDigitChar c = true := hd c (List.mem_cons_self _ _)
  have hws : isJsWs c = false := isDigitChar_not_ws hc
  have hdrop : (c :: rest).dropWhile isJsWs = c :: rest := by
    rw [List.dropWhile_cons]
    simp [hws]
  have hcm : c ≠ '-' := isDigitChar_ne_char hc (Or.inl (by decide))
  have hcp : c ≠ '+' := isDigitChar_ne_char hc (Or.inl (by decide))
  have hpre : (['0', 'x'].isPrefixOf (c :: rest) || ['0', 'X'].isPrefixOf (c :: rest)) = false := by
    cases rest with
    | nil => simp [List.isPrefixOf]
    | cons d rest2 =>
      have hdd : isDigitChar d = true := hd d (by simp)
      have hdx : ('x' == d) = false :=
        beq_eq_false_iff_ne.mpr (Ne.symm (isDigitChar_ne_char hdd (Or.inr (by decide))))
      have hdX : ('X' == d) = false :=
        beq_eq_false_iff_ne.mpr (Ne.symm (isDigitChar_ne_char hdd (Or.inr (by decide))))
      simp [List.isPrefixOf, hdx, hdX]
  have htake : (c :: rest).takeWhile (isRadixDigit 10) = c :: rest :=
    List.takeWhile_eq_self_iff.mpr fun x hx => by
      simpa [isRadixDigit] using hd x hx
  simp only [jsParseIntList, hdrop, if_neg hcm, if_neg hcp, hpre, Bool.false_eq_true,
    if_false, htake, List.isEmpty_cons, one_mul]

theorem listReplaceFirst_no_apos {l : List Char}
    (hd : ∀ c ∈ l, isDigitChar c = true) :
    listReplaceFirst [apos] [] l = l := by
  induction l with
  | nil => rfl
  | cons c rest ih =>
    have hc := hd c (List.mem_cons_self _ _)
    have hca : (apos == c) = false :=
      beq_eq_false_iff_ne.mpr (Ne.symm (isDigitChar_ne_char hc (Or.inl (by decide))))
    unfold listReplaceFirst
    rw [if_neg (by simp [List.isPrefixOf, hca])]
    rw [ih fun x hx => hd x (List.mem_cons_of_mem _ hx)]

theorem listReplaceFirst_trailing_apos {l : List Char}
    (hd : ∀ c ∈ l, isDigitChar c = true) :
    listReplaceFirst [apos] [] (l ++ [apos]) = l := by
  induction l with
  | nil => simp [listReplaceFirst, List.isPrefixOf]
  | cons c rest ih =>
    have hc := hd c (List.mem_cons_self _ _)
    have hca : (apos == c) = false :=
      beq_eq_false_iff_ne.mpr (Ne.symm (isDigitChar_ne_char hc (Or.inl (by decide))))
    rw [List.cons_append]
    unfold listReplaceFirst
    rw [if_neg (by simp [List.isPrefixOf, hca])]
    rw [ih fun x hx => hd x (List.mem_cons_of_mem _ hx)]

theorem listReplaceFirst_no_0x {l : List Char}
    (hd : ∀ c ∈ l, isHexDigitChar c = true) :
    listReplaceFirst ['0', 'x'] [] l = l := by
  induction l with
  | nil => rfl
  | cons c rest ih =>
    have hpre : ['0', 'x'].isPrefixOf (c :: rest) = false := by
      cases rest with
      | nil => simp [List.isPrefixOf]
      | cons d rest2 =>
        have hdd : isHexDigitChar d = true := hd d (by simp)
        have hdx : ('x' == d) = false :=
          beq_eq_false_iff_ne.mpr (Ne.symm (isHexDigitChar_ne_x hdd).1)
        simp [List.isPrefixOf, hdx]
    unfold listReplaceFirst
    rw [if_neg (by simp [hpre])]
    rw [ih fun x hx => hd x (List.mem_cons_of_mem _ hx)]

theorem jsReplaceFirst_hexLike {s : String} (h : isHexLike s = true) :
    jsReplaceFirst s "0x" "" = strip0x s := by
  unfold jsReplaceFirst
  by_cases hp : ['0', 'x'].isPrefixOf s.data
  · obtain ⟨rest, hrest⟩ := List.isPrefixOf_iff_prefix.mp hp
    unfold strip0x
    rw [if_pos hp, ← hrest]
    show String.mk (listReplaceFirst ['0', 'x'] [] (['0', 'x'] ++ rest)) = _
    simp [listReplaceFirst, List.isPrefixOf]
  · have hall : ∀ c ∈ s.data, isHexDigitChar c = true := by
      unfold isHexLike strip0x at h
      rw [if_neg hp] at h
      exact List.all_eq_true.mp h
    unfold strip0x
    rw [if_neg hp]
    show String.mk (listReplaceFirst ['0', 'x'] [] s.data) = s
    rw [listReplaceFirst_no_0x hall, stringMk_data]

theorem curve_sep_key_inj (sep : String) (c1 c2 : Curve) (t1 t2 : String) :
    curveToString c1 ++ sep ++ t1 = curveToString c2 ++ sep ++ t2 ↔ c1 = c2 ∧ t1 = t2 := by
  constructor
  · intro h
    have hd := congrArg String.data h
    rw [String.data_append, String.data_append, String.data_append, String.data_append] at hd
    have hcur : c1 = c2 := by
      have h2 := congrArg (List.take 2) hd
      rw [List.append_assoc, List.append_assoc,
        List.take_append_of_le_length (by cases c1 <;> decide),
        List.take_append_of_le_length (by cases c2 <;> decide)] at h2
      revert h2
      cases c1 <;> cases c2 <;> intro h2 <;> first | rfl | exact absurd h2 (by decide)
    subst hcur
    refine ⟨rfl, String.ext ?_⟩
    rw [List.append_assoc, List.append_assoc] at hd
    exact List.append_cancel_left (List.append_cancel_left hd)
  · rintro ⟨rfl, rfl⟩
    rfl

theorem foldl_push_filter (p : SignerType → Bool) :
    ∀ (l : List SignerType) (acc : List SignerType),
      l.foldl (fun acc x => if p x then acc ++ [x] else acc) acc = acc ++ l.filter p := by
  intro l
  induction l with
  | nil => intro acc; simp
  | cons x xs ih =>
    intro acc
    by_cases h : p x <;> simp [List.filter_cons, h, ih, List.append_assoc]

theorem curve_beq_self (c : Curve) : (c == c) = true := by
  cases c <;> rfl

theorem adamikCurve_ok {c : Curve} (h : c ≠ Curve.stark) :
    ∃ sc, SodotSigner.adamikCurveToSodotCurve c = Except.ok sc := by
  cases c with
  | secp256k1 => exact ⟨.ecdsa, rfl⟩
  | ed25519 => exact ⟨.ed25519, rfl⟩
  | stark => exact absurd rfl h

theorem getOrGenerateKeyIds_parts_cache_free (env : Env) (w : SodotWorld)
    (spec : SignerSpec) (cache1 cache2 : SodotSigner.KeyCache) :
    (SodotSigner.getOrGenerateKeyIds env w cache1 spec).1 =
      (SodotSigner.getOrGenerateKeyIds env w cache2 spec).1 ∧
    (SodotSigner.getOrGenerateKeyIds env w cache1 spec).2.2 =
      (SodotSigner.getOrGenerateKeyIds env w cache2 spec).2.2 := by
  cases hc : SodotSigner.adamikCurveToSodotCurve spec.curve with
  | error e =>
    simp only [SodotSigner.getOrGenerateKeyIds, hc]
    by_cases h : jsTruthy (List.lookup (SodotSigner.keyIdsEnvVar spec.curve) env) = true
    · rw [if_pos h, if_pos h]
      exact ⟨rfl, rfl⟩
    · rw [if_neg h, if_neg h]
      exact ⟨rfl, rfl⟩
  | ok sc =>
    cases hkv : SodotSigner.keygenVertex w sc with
    | mk res ev =>
      simp only [SodotSigner.getOrGenerateKeyIds, hc, hkv]
      by_cases h : jsTruthy (List.lookup (SodotSigner.keyIdsEnvVar spec.curve) env) = true
      · rw [if_pos h, if_pos h]
        exact ⟨rfl, rfl⟩
      · rw [if_neg h, if_neg h]
        cases res with
        | error e => exact ⟨rfl, rfl⟩
        | ok ids => exact ⟨rfl, rfl⟩

theorem getOrGenerateKeyIds_keygen_success (env : Env) (w : SodotWorld)
    (cache : SodotSigner.KeyCache) (spec : SignerSpec) {sc : SodotCurve}
    (henv : jsTruthy (env.lookup (SodotSigner.keyIdsEnvVar spec.curve)) = false)
    (hsc : SodotSigner.adamikCurveToSodotCurve spec.curve = Except.ok sc)
    (hall : ∀ i, i < 3 → w.keygenStatus i = 200) :
    SodotSigner.getOrGenerateKeyIds env w cache spec =
      (Except.ok [w.initKeyId 0, w.initKeyId 1, w.initKeyId 2],
       (SodotSigner.getKeyCacheKey spec,
         [w.initKeyId 0, w.initKeyId 1, w.initKeyId 2]) :: cache,
       [NetEvent.createRoom 0, NetEvent.keygenInit 0, NetEvent.keygenInit 1,
        NetEvent.keygenInit 2, NetEvent.keygenCall 0, NetEvent.keygenCall 1,
        NetEvent.keygenCall 2]) := by
  have hf : (List.range SodotSigner.nParties).find?
      (fun i => !(w.keygenStatus i = 200)) = Option.none :=
    List.find?_eq_none.mpr fun x hx => by
      simp only [SodotSigner.nParties, List.mem_range] at hx
      simp [hall x hx]
  have hkv : SodotSigner.keygenVertex w sc =
      (Except.ok [w.initKeyId 0, w.initKeyId 1, w.initKeyId 2],
       [NetEvent.createRoom 0, NetEvent.keygenInit 0, NetEvent.keygenInit 1,
        NetEvent.keygenInit 2, NetEvent.keygenCall 0, NetEvent.keygenCall 1,
        NetEvent.keygenCall 2]) := by
    unfold SodotSigner.keygenVertex
    rw [hf]
    rfl
  simp only [SodotSigner.getOrGenerateKeyIds]
  rw [henv]
  simp only [Bool.false_eq_true, if_false, hsc, hkv]

theorem sodotGetPubkey_cache_free (d : String → Option Int → String) (env : Env)
    (w : SodotWorld) (spec : SignerSpec) (cache1 cache2 : SodotSigner.KeyCache) :
    (SodotSigner.getPubkey d env w cache1 spec).1 =
      (SodotSigner.getPubkey d env w cache2 spec).1 ∧
    (SodotSigner.getPubkey d env w cache1 spec).2.2 =
      (SodotSigner.getPubkey d env w cache2 spec).2.2 := by
  obtain ⟨h1, h2⟩ := getOrGenerateKeyIds_parts_cache_free env w spec cache1 cache2
  unfold SodotSigner.getPubkey
  cases hg1 : SodotSigner.getOrGenerateKeyIds env w cache1 spec with
  | mk r1 rest1 =>
    cases rest1 with
    | mk c1 e1 =>
      cases hg2 : SodotSigner.getOrGenerateKeyIds env w cache2 spec with
      | mk r2 rest2 =>
        cases rest2 with
        | mk c2 e2 =>
          rw [hg1, hg2] at h1 h2
          have h1b : r1 = r2 := h1
          have h2b : e1 = e2 := h2
          subst h1b
          subst h2b
          cases r1 with
          | error e => exact ⟨rfl, rfl⟩
          | ok ids =>
            cases SodotSigner.adamikCurveToSodotCurve spec.curve with
            | error e => exact ⟨rfl, rfl⟩
            | ok sc => exact ⟨rfl, rfl⟩

theorem dfnsGetOrCreateWallet_hit (w : DfnsSigner.DfnsWorld) (cache : List (Curve × String))
    (curve : Curve) (id : String) (h : List.lookup curve cache = some id) :
    DfnsSigner.getOrCreateWallet w cache curve = (id, cache) := by
  simp only [DfnsSigner.getOrCreateWallet]
  rw [h]

theorem dfnsGetOrCreateWallet_lookup (w : DfnsSigner.DfnsWorld)
    (cache : List (Curve × String)) (curve : Curve) :
    List.lookup curve (DfnsSigner.getOrCreateWallet w cache curve).2 =
      some (DfnsSigner.getOrCreateWallet w cache curve).1 := by
  simp only [DfnsSigner.getOrCreateWallet]
  cases hl : List.lookup curve cache with
  | some id => simp [hl]
  | none =>
    cases hf : List.find?
        (fun wl => wl.network == DfnsSigner.convertAdamikCurveToDfnsCurve curve) w.wallets with
    | some wl => simp [hl, hf, List.lookup_cons, curve_beq_self]
    | none => simp [hl, hf, List.lookup_cons, curve_beq_self]

theorem dfnsGetOrCreateWallet_idem (w : DfnsSigner.DfnsWorld)
    (cache : List (Curve × String)) (curve : Curve) :
    DfnsSigner.getOrCreateWallet w (DfnsSigner.getOrCreateWallet w cache curve).2 curve =
      DfnsSigner.getOrCreateWallet w cache curve := by
  rw [dfnsGetOrCreateWallet_hit w _ curve _ (dfnsGetOrCreateWallet_lookup w cache curve)]

/-! ## Claim theorems -/

/-- Claim C7: for every byte input to the local backend's Stark
private-key derivation, the derived key equals the SHA-256 digest of the
BIP32-derived secp256k1 private key reduced modulo (curve order − 1) and
incremented by 1, hence always lies strictly between 0 and the curve
order. -/
theorem c7_stark_key_range (digest : Nat) :
    LocalSigner.getStarkPrivateKeyValue digest =
      digest % (LocalSigner.starkOrder - 1) + 1 ∧
    0 < LocalSigner.getStarkPrivateKeyValue digest ∧
    LocalSigner.getStarkPrivateKeyValue digest < LocalSigner.starkOrder := by
  refine ⟨rfl, Nat.succ_pos _, ?_⟩
  have h0 : 0 < LocalSigner.starkOrder - 1 := by decide
  have h1 := Nat.mod_lt digest h0
  unfold LocalSigner.getStarkPrivateKeyValue
  omega

/-- Claim C1: the first `connect(kind)` creates and retains the backend
instance; every later `connect(kind2)` is a no-op if and only if `kind2`
equals the already-connected kind, and otherwise fails with a Conflict
error whose message names the already-connected kind. -/
theorem c1_connect_singleton (env : Env) (k k2 : SignerType)
    (h : isConfigValid k env = true) :
    SignerWrapper.connect k env Option.none = (Except.ok (), some k) ∧
    (SignerWrapper.connect k2 env (some k) = (Except.ok (), some k) ↔ k2 = k) ∧
    (k2 ≠ k →
      SignerWrapper.connect k2 env (some k) =
        (Except.error ("Signer was already instanciated as " ++ signerTypeToString k),
         some k)) := by
  refine ⟨by simp [SignerWrapper.connect, h], ⟨?_, ?_⟩, ?_⟩
  · intro he
    by_contra hne
    have hkk : ¬(k = k2) := fun hh => hne hh.symm
    simp [SignerWrapper.connect, hkk] at he
  · intro he
    subst he
    simp [SignerWrapper.connect]
  · intro hne
    have hkk : ¬(k = k2) := fun hh => hne hh.symm
    simp [SignerWrapper.connect, hkk]

/-- Witness for C1: a concrete session connecting `LOCAL` first, then
attempting `SODOT`. -/
theorem c1_witness :
    isConfigValid SignerType.LOCAL [("SEED_PHRASE", "test")] = true ∧
    (SignerWrapper.connect SignerType.LOCAL [("SEED_PHRASE", "test")] Option.none =
        (Except.ok (), some SignerType.LOCAL) ∧
      (SignerWrapper.connect SignerType.SODOT [("SEED_PHRASE", "test")]
            (some SignerType.LOCAL) =
          (Except.ok (), some SignerType.LOCAL) ↔
        SignerType.SODOT = SignerType.LOCAL) ∧
      (SignerType.SODOT ≠ SignerType.LOCAL →
        SignerWrapper.connect SignerType.SODOT [("SEED_PHRASE", "test")]
            (some SignerType.LOCAL) =
          (Except.error ("Signer was already instanciated as " ++
              signerTypeToString SignerType.LOCAL),
           some SignerType.LOCAL))) :=
  ⟨by decide, c1_connect_singleton [("SEED_PHRASE", "test")] SignerType.LOCAL
    SignerType.SODOT (by decide)⟩

/-- Claim C10: when `connect(kind)` runs with no backend connected and
the selected constructor throws, no instance is retained — the state
stays `none` — and a subsequent `connect` with a constructible kind still
succeeds. -/
theorem c10_connect_state_on_error (env : Env) (k k2 : SignerType)
    (hk : isConfigValid k env = false) (hk2 : isConfigValid k2 env = true) :
    SignerWrapper.connect k env Option.none =
      (Except.error (ctorErrorMsg k), Option.none) ∧
    SignerWrapper.connect k2 env Option.none = (Except.ok (), some k2) := by
  constructor <;> simp [SignerWrapper.connect, hk, hk2]

/-- Witness for C10: connecting `SODOT` without its configuration fails
and leaves the state empty; connecting `LOCAL` afterwards succeeds. -/
theorem c10_witness :
    isConfigValid SignerType.SODOT [("SEED_PHRASE", "test")] = false ∧
    (SignerWrapper.connect SignerType.SODOT [("SEED_PHRASE", "test")] Option.none =
        (Except.error (ctorErrorMsg SignerType.SODOT), Option.none) ∧
      SignerWrapper.connect SignerType.LOCAL [("SEED_PHRASE", "test")] Option.none =
        (Except.ok (), some SignerType.LOCAL)) :=
  ⟨by decide, c10_connect_state_on_error [("SEED_PHRASE", "test")] SignerType.SODOT
    SignerType.LOCAL (by decide) (by decide)⟩

/-- Counterexample for C8: the threshold-MPC key cache key is
`${spec.curve}` — two specs differing only in coin type share one cache
key — and the Dfns wallet resolution gives identical results for such
specs, contradicting "calls differing in either component of the pair are
resolved and cached under distinct keys". -/
theorem c8_counterexample :
    SodotSigner.getKeyCacheKey
        ⟨Curve.secp256k1, HashFunction.sha256, SignatureFormat.rs, "60"⟩ =
      SodotSigner.getKeyCacheKey
        ⟨Curve.secp256k1, HashFunction.sha256, SignatureFormat.rs, "0"⟩ ∧
    DfnsSigner.getPubkey ⟨[⟨"KeyECDSA", "w1"⟩], fun _ => "w2", fun id => id⟩ []
        ⟨Curve.secp256k1, HashFunction.sha256, SignatureFormat.rs, "60"⟩ =
      DfnsSigner.getPubkey ⟨[⟨"KeyECDSA", "w1"⟩], fun _ => "w2", fun id => id⟩ []
        ⟨Curve.secp256k1, HashFunction.sha256, SignatureFormat.rs, "0"⟩ :=
  ⟨rfl, rfl⟩

/-- Amended C8: `getPublicKey` is idempotent on the Local, Turnkey and
Dfns backends (a repeated call returns the first call's result with the
cache unchanged); Local and Turnkey memoize by keys in bijection with
`(curve, coinType)`, while the Dfns wallet cache is keyed by the curve
alone, so Dfns calls differing only in coin type share one entry; the
threshold-MPC key cache is keyed by the curve alone and is written but
never consulted (its read is dead), so that backend's `getPubkey` result
and network traffic are independent of the cache: without
environment-provided key identifiers every call — a repeated one
included — re-runs the full keygen ceremony before deriving the public
key from vertex 0, and only with environment-provided identifiers are
repeated calls guaranteed to return the same result. -/
theorem c8_memoization_amended :
    (∀ s1 s2 : SignerSpec,
      LocalSigner.getCacheKey s1 = LocalSigner.getCacheKey s2 ↔
        s1.curve = s2.curve ∧ s1.coinType = s2.coinType) ∧
    (∀ s1 s2 : SignerSpec,
      TurnkeySigner.keyForSpec s1 = TurnkeySigner.keyForSpec s2 ↔
        s1.curve = s2.curve ∧ s1.coinType = s2.coinType) ∧
    (∀ s1 s2 : SignerSpec,
      SodotSigner.getKeyCacheKey s1 = SodotSigner.getKeyCacheKey s2 ↔
        s1.curve = s2.curve) ∧
    (∀ (derive : SignerSpec → String) (cache : List (String × String))
        (spec : SignerSpec),
      LocalSigner.getPubkey derive (LocalSigner.getPubkey derive cache spec).2 spec =
        LocalSigner.getPubkey derive cache spec) ∧
    (∀ (w : TurnkeySigner.TurnkeyWorld) (cache : List (String × String))
        (spec : SignerSpec) (v : String) (cache2 : List (String × String)),
      TurnkeySigner.getPubkey w cache spec = Except.ok (v, cache2) →
      TurnkeySigner.getPubkey w cache2 spec = Except.ok (v, cache2)) ∧
    (∀ (w : DfnsSigner.DfnsWorld) (cache : List (Curve × String)) (s1 s2 : SignerSpec),
      s1.curve = s2.curve →
      DfnsSigner.getPubkey w cache s1 = DfnsSigner.getPubkey w cache s2) ∧
    (∀ (w : DfnsSigner.DfnsWorld) (cache : List (Curve × String)) (spec : SignerSpec),
      DfnsSigner.getPubkey w (DfnsSigner.getPubkey w cache spec).2 spec =
        DfnsSigner.getPubkey w cache spec) ∧
    (∀ (d : String → Option Int → String) (env : Env) (w : SodotWorld)
        (spec : SignerSpec) (cache1 cache2 : SodotSigner.KeyCache),
      (SodotSigner.getPubkey d env w cache1 spec).1 =
        (SodotSigner.getPubkey d env w cache2 spec).1 ∧
      (SodotSigner.getPubkey d env w cache1 spec).2.2 =
        (SodotSigner.getPubkey d env w cache2 spec).2.2) ∧
    (∀ (d : String → Option Int → String) (env : Env) (w : SodotWorld)
        (cache : SodotSigner.KeyCache) (spec : SignerSpec),
      spec.curve ≠ Curve.stark →
      jsTruthy (env.lookup (SodotSigner.keyIdsEnvVar spec.curve)) = false →
      (∀ i, i < 3 → w.keygenStatus i = 200) →
      (SodotSigner.getPubkey d env w cache spec).2.2 =
        [NetEvent.createRoom 0, NetEvent.keygenInit 0, NetEvent.keygenInit 1,
         NetEvent.keygenInit 2, NetEvent.keygenCall 0, NetEvent.keygenCall 1,
         NetEvent.keygenCall 2, NetEvent.derivePubkeyCall 0] ∧
      (SodotSigner.getPubkey d env w cache spec).1 =
        Except.ok (d (w.initKeyId 0) (TurnkeySigner.jsNumber spec.coinType))) ∧
    (∀ (d : String → Option Int → String) (env : Env) (w : SodotWorld)
        (cache : SodotSigner.KeyCache) (spec : SignerSpec),
      jsTruthy (env.lookup (SodotSigner.keyIdsEnvVar spec.curve)) = true →
      (SodotSigner.getPubkey d env w
          (SodotSigner.getPubkey d env w cache spec).2.1 spec).1 =
        (SodotSigner.getPubkey d env w cache spec).1) := by
  refine ⟨?_, ?_, ?_, ?_, ?_, ?_, ?_, ?_, ?_, ?_⟩
  · intro s1 s2
    exact curve_sep_key_inj ":" s1.curve s2.curve s1.coinType s2.coinType
  · intro s1 s2
    exact curve_sep_key_inj "-" s1.curve s2.curve s1.coinType s2.coinType
  · intro s1 s2
    unfold SodotSigner.getKeyCacheKey
    constructor
    · revert s1 s2
      intro s1 s2
      cases h1 : s1.curve <;> cases h2 : s2.curve <;> intro h <;>
        first | rfl | exact absurd h (by decide)
    · intro h
      rw [h]
  · intro derive cache spec
    unfold LocalSigner.getPubkey memoLookup
    cases hl : List.lookup (LocalSigner.getCacheKey spec) cache with
    | some v => simp [hl]
    | none => simp [hl, List.lookup_cons]
  · intro w cache spec v cache2 h
    simp only [TurnkeySigner.getPubkey] at h ⊢
    cases hl : List.lookup (TurnkeySigner.keyForSpec spec) cache with
    | some v0 =>
      rw [hl] at h
      simp only [Except.ok.injEq, Prod.mk.injEq] at h
      obtain ⟨rfl, rfl⟩ := h
      rw [hl]
    | none =>
      rw [hl] at h
      cases hc : TurnkeySigner.convertAdamikCurveToTurnkeyCurve spec.curve with
      | error e => rw [hc] at h; exact absurd h (by simp)
      | ok curve =>
        rw [hc] at h
        simp only at h
        cases hf : List.find? (fun a =>
            a.curve == curve &&
            (match getCoinTypeFromDerivationPath a.path, TurnkeySigner.jsNumber spec.coinType with
             | some b, some ct => b == ct
             | _, _ => false) &&
            a.addressFormat == "ADDRESS_FORMAT_COMPRESSED") w.accounts with
        | some account =>
          rw [hf] at h
          simp only [Except.ok.injEq, Prod.mk.injEq] at h
          obtain ⟨rfl, rfl⟩ := h
          simp [List.lookup_cons]
        | none =>
          rw [hf] at h
          simp only [Except.ok.injEq, Prod.mk.injEq] at h
          obtain ⟨rfl, rfl⟩ := h
          simp [List.lookup_cons]
  · intro w cache s1 s2 h
    unfold DfnsSigner.getPubkey
    rw [h]
  · intro w cache spec
    simp only [DfnsSigner.getPubkey]
    rw [dfnsGetOrCreateWallet_idem]
  · intro d env w spec cache1 cache2
    exact sodotGetPubkey_cache_free d env w spec cache1 cache2
  · intro d env w cache spec hcurve henv hall
    obtain ⟨sc, hsc⟩ := adamikCurve_ok hcurve
    have hget := getOrGenerateKeyIds_keygen_success env w cache spec henv hsc hall
    unfold SodotSigner.getPubkey
    rw [hget, hsc]
    exact ⟨rfl, rfl⟩
  · intro d env w cache spec _
    exact (sodotGetPubkey_cache_free d env w spec
      (SodotSigner.getPubkey d env w cache spec).2.1 cache).1

/-- Witness for C8 (amended): the Turnkey idempotence clause applied to a
concrete world and spec, and the keygen-per-call clause applied to a
cache that already holds an entry for the curve — the ceremony still
runs. -/
theorem c8_witness :
    TurnkeySigner.getPubkey ⟨[], "addr"⟩ [] specSecpSha256 =
      Except.ok ("addr", [("secp256k1-60", "addr")]) ∧
    TurnkeySigner.getPubkey ⟨[], "addr"⟩ [("secp256k1-60", "addr")] specSecpSha256 =
      Except.ok ("addr", [("secp256k1-60", "addr")]) ∧
    (SodotSigner.getPubkey (fun k _ => k) [] wAllOk
        [("secp256k1", ["cached0", "cached1", "cached2"])] specSecpSha256).2.2 =
      [NetEvent.createRoom 0, NetEvent.keygenInit 0, NetEvent.keygenInit 1,
       NetEvent.keygenInit 2, NetEvent.keygenCall 0, NetEvent.keygenCall 1,
       NetEvent.keygenCall 2, NetEvent.derivePubkeyCall 0] :=
  ⟨rfl,
   c8_memoization_amended.2.2.2.2.1 ⟨[], "addr"⟩ [] specSecpSha256 "addr"
     [("secp256k1-60", "addr")] rfl,
   (c8_memoization_amended.2.2.2.2.2.2.2.2.1 (fun k _ => k) [] wAllOk
     [("secp256k1", ["cached0", "cached1", "cached2"])] specSecpSha256
     (by decide) rfl fun _ _ => rfl).1⟩

/-- Counterexample for C9: an environment in which every required SODOT
variable is present but bound to the empty string — the URL value is
malformed, yet the predicate returns true. -/
theorem c9_counterexample :
    isConfigValid SignerType.SODOT (sodotRequiredKeys.map fun k => (k, "")) = true ∧
    (sodotRequiredKeys.map fun k => (k, "")).lookup "SODOT_VERTEX_URL_0" = some "" := by
  constructor <;> decide

/-- Amended C9: each configuration-validity predicate is a total boolean
function of the environment (never throws) that returns false whenever a
required key is missing; the Local predicate additionally rejects an
empty seed phrase, while the other predicates depend only on key presence
and never inspect values; `availableBackends` returns exactly the kinds
whose predicate returns true. -/
theorem c9_config_predicates_amended :
    (∀ (t : SignerType) (env : Env) (k : String),
      k ∈ requiredKeys t → env.lookup k = Option.none → isConfigValid t env = false) ∧
    (∀ env : Env, env.lookup "SEED_PHRASE" = some "" →
      isConfigValid SignerType.LOCAL env = false) ∧
    (∀ (t : SignerType) (env env2 : Env), t ≠ SignerType.LOCAL →
      (∀ k : String, (env.lookup k).isSome = (env2.lookup k).isSome) →
      isConfigValid t env = isConfigValid t env2) ∧
    (∀ (t : SignerType) (env : Env),
      t ∈ SignerWrapper.getAvailableProviders env ↔ isConfigValid t env = true) := by
  have hall : ∀ (env env2 : Env),
      (∀ k : String, (env.lookup k).isSome = (env2.lookup k).isSome) →
      ∀ ks : List String,
        (ks.all fun k => (env.lookup k).isSome) = (ks.all fun k => (env2.lookup k).isSome) := by
    intro env env2 hiso ks
    induction ks with
    | nil => rfl
    | cons a l ih => simp [List.all_cons, hiso a, ih]
  refine ⟨?_, ?_, ?_, ?_⟩
  · intro t env k hk hnone
    cases t with
    | LOCAL =>
      simp only [requiredKeys, List.mem_singleton] at hk
      subst hk
      simp [isConfigValid, jsTruthy, hnone]
    | SODOT =>
      refine Bool.eq_false_iff.mpr fun hallt => ?_
      have h2 := List.all_eq_true.mp hallt k hk
      rw [hnone] at h2
      simp at h2
    | TURNKEY =>
      refine Bool.eq_false_iff.mpr fun hallt => ?_
      have h2 := List.all_eq_true.mp hallt k hk
      rw [hnone] at h2
      simp at h2
    | DFNS =>
      refine Bool.eq_false_iff.mpr fun hallt => ?_
      have h2 := List.all_eq_true.mp hallt k hk
      rw [hnone] at h2
      simp at h2
  · intro env h
    simp [isConfigValid, jsTruthy, h]
  · intro t env env2 ht hiso
    cases t with
    | LOCAL => exact absurd rfl ht
    | SODOT => exact hall env env2 hiso _
    | TURNKEY => exact hall env env2 hiso _
    | DFNS => exact hall env env2 hiso _
  · intro t env
    unfold SignerWrapper.getAvailableProviders
    rw [foldl_push_filter]
    simp only [List.nil_append, List.mem_filter]
    constructor
    · exact fun h => h.2
    · intro hp
      exact ⟨by cases t <;> simp [SignerWrapper.supportedProviders], hp⟩

/-- Witness for C9 (amended): the missing-key clause applied to the
empty environment and `SODOT_VERTEX_URL_0`. -/
theorem c9_witness :
    ("SODOT_VERTEX_URL_0" ∈ requiredKeys SignerType.SODOT ∧
      ([] : Env).lookup "SODOT_VERTEX_URL_0" = Option.none) ∧
    isConfigValid SignerType.SODOT [] = false :=
  ⟨⟨by decide, rfl⟩,
   c9_config_predicates_amended.1 SignerType.SODOT [] "SODOT_VERTEX_URL_0" (by decide) rfl⟩

/-- Claim C5: for every raw signature with hexadecimal components, the
extraction utility strips a `0x` prefix from r, s and v and returns r‖s
for format "rs" and r‖s‖v for format "rsv"; any other format value fails
with the unsupported-format error. -/
theorem c5_extract_signature (r s v : String)
    (hr : isHexLike r = true) (hs : isHexLike s = true) (hv : isHexLike v = true) :
    extractSignature "rs" ⟨r, s, Option.none⟩ = Except.ok (strip0x r ++ strip0x s) ∧
    extractSignature "rsv" ⟨r, s, some v⟩ =
      Except.ok (strip0x r ++ strip0x s ++ strip0x v) ∧
    (∀ fmt : String, fmt ≠ "rs" → fmt ≠ "rsv" →
      extractSignature fmt ⟨r, s, some v⟩ =
        Except.error ("Unsupported signature format: " ++ fmt)) := by
  have hr2 := jsReplaceFirst_hexLike hr
  have hs2 := jsReplaceFirst_hexLike hs
  have hv2 := jsReplaceFirst_hexLike hv
  refine ⟨?_, ?_, ?_⟩
  · simp [extractSignature, sanitizeSignature, hr2, hs2]
  · simp [extractSignature, sanitizeSignature, hr2, hs2, hv2]
  · intro fmt h1 h2
    simp [extractSignature, h1, h2]

/-- Witness for C5: the specification's two concrete examples. -/
theorem c5_witness :
    isHexLike "0xAA" = true ∧ isHexLike "0xBB" = true ∧ isHexLike "1c" = true ∧
    extractSignature "rs" ⟨"0xAA", "0xBB", Option.none⟩ = Except.ok "AABB" ∧
    extractSignature "rsv" ⟨"0xAA", "0xBB", some "1c"⟩ = Except.ok "AABB1c" := by
  have h := c5_extract_signature "0xAA" "0xBB" "1c" (by decide) (by decide) (by decide)
  exact ⟨by decide, by decide, by decide,
    h.1.trans (congrArg Except.ok (by decide)),
    h.2.1.trans (congrArg Except.ok (by decide))⟩

/-- Counterexample for C6: the code accepts `m/12abc/1` because
`parseInt` reads the leading digits and ignores trailing characters,
although "12abc" does not parse as a non-negative integer, refuting the
claimed equivalence. -/
theorem c6_counterexample :
    isDerivationPath "m/12abc/1" = true ∧
    specDerivationPathValid "m/12abc/1" = false := by
  constructor <;> decide

/-- A segment accepted by the specification's strict reading (digits with
an optional trailing hardened marker) passes the source's
`parseInt`-based segment check with a non-negative result. -/
theorem segment_parses {seg : List Char} (hseg : specSegmentOk seg = true) :
    ∃ n : Nat,
      jsParseInt (jsReplaceFirst (String.mk seg) hardenedMark "") = some (Int.ofNat n) := by
  simp only [specSegmentOk, Bool.and_eq_true] at hseg
  obtain ⟨hne, hdig⟩ := hseg
  have hne2 : stripHardenedSpec seg ≠ [] := by
    intro he
    rw [he] at hne
    simp at hne
  have hdig2 : ∀ c ∈ stripHardenedSpec seg, isDigitChar c = true := List.all_eq_true.mp hdig
  show ∃ n : Nat, jsParseIntList (listReplaceFirst [apos] [] seg) = some (Int.ofNat n)
  by_cases hlast : seg.getLast? = some apos
  · have hsne : seg ≠ [] := by
      intro he
      rw [he] at hlast
      simp at hlast
    have hgl : seg.getLast hsne = apos := by
      have h2 := List.getLast?_eq_getLast seg hsne
      rw [hlast] at h2
      exact (Option.some.injEq _ _ ▸ h2).symm
    have hsplit : seg.dropLast ++ [apos] = seg := by
      have h3 := List.dropLast_append_getLast hsne
      rwa [hgl] at h3
    have hcl : stripHardenedSpec seg = seg.dropLast := by
      rw [stripHardenedSpec, if_pos hlast]
    rw [hcl] at hdig2 hne2
    rw [← hsplit, listReplaceFirst_trailing_apos hdig2]
    exact ⟨digitsToNat 10 seg.dropLast, jsParseIntList_digits hne2 hdig2⟩
  · have hcl : stripHardenedSpec seg = seg := by
      rw [stripHardenedSpec, if_neg hlast]
    rw [hcl] at hdig2 hne2
    rw [listReplaceFirst_no_apos hdig2]
    exact ⟨digitsToNat 10 seg, jsParseIntList_digits hne2 hdig2⟩

/-- Amended C6: every path that starts with `m/`, has at least two
segments after `m`, and whose segments (hardened marker stripped) are
non-empty digit strings is accepted; acceptance guarantees the `m/`
prefix and the two-segment minimum, but is broader than the claim's
characterization because `parseInt` ignores trailing characters after a
leading integer; the claim's concrete examples hold: `m/44'/60'/0'/0/0`
maps to coin type 60 and `m/abc/1` is invalid. -/
theorem c6_derivation_path_amended :
    (∀ path : String, specDerivationPathValid path = true → isDerivationPath path = true) ∧
    (∀ path : String, isDerivationPath path = true →
      jsStartsWith path "m/" = true ∧
      2 ≤ ((jsSplitChar '/' path.data).drop 1).length) ∧
    getCoinTypeFromDerivationPath samplePath = some 60 ∧
    getCoinTypeFromDerivationPath "m/abc/1" = Option.none ∧
    isDerivationPath samplePath = true ∧
    isDerivationPath "m/abc/1" = false := by
  refine ⟨?_, ?_, by decide, by decide, by decide, by decide⟩
  · intro path h
    simp only [specDerivationPathValid, Bool.and_eq_true, decide_eq_true_eq] at h
    obtain ⟨hstart, hlen, hall⟩ := h
    unfold isDerivationPath
    rw [hstart]
    simp only [Bool.not_true, Bool.false_eq_true, if_false]
    rw [if_neg (by omega)]
    refine List.all_eq_true.mpr fun seg hseg => ?_
    obtain ⟨n, hn⟩ := segment_parses (List.all_eq_true.mp hall seg hseg)
    rw [hn]
    simp [decide_eq_true_eq, Int.ofNat_nonneg]
  · intro path h
    unfold isDerivationPath at h
    by_cases hstart : jsStartsWith path "m/"
    · rw [hstart] at h
      simp only [Bool.not_true, Bool.false_eq_true, if_false] at h
      refine ⟨hstart, ?_⟩
      by_contra hlen
      push_neg at hlen
      rw [if_pos hlen] at h
      exact absurd h (by decide)
    · rw [Bool.not_eq_true] at hstart
      rw [hstart] at h
      simp at h

/-- Witness for C6 (amended): the strict-validity clause applied to the
specification's example path. -/
theorem c6_witness :
    specDerivationPathValid samplePath = true ∧ isDerivationPath samplePath = true :=
  ⟨by decide, c6_derivation_path_amended.1 samplePath (by decide)⟩

theorem jsTruthy_eq_true {o : Option String} (h : jsTruthy o = true) :
    ∃ s, o = some s ∧ (s == "") = false := by
  cases o with
  | none => simp [jsTruthy] at h
  | some s => exact ⟨s, rfl, by simpa [jsTruthy] using h⟩

theorem jsSplitChar_ne_nil (sep : Char) (l : List Char) : jsSplitChar sep l ≠ [] := by
  cases l with
  | nil => simp [jsSplitChar]
  | cons c rest =>
    cases hsp : jsSplitChar sep rest with
    | nil => simp [jsSplitChar, hsp]
    | cons h t =>
      unfold jsSplitChar
      rw [hsp]
      by_cases hcs : c = sep
      · simp [hcs]
      · simp [hcs]

theorem extractSignature_format_ok (f : SignatureFormat) (sig : RawSignature) :
    ∃ o, extractSignature (signatureFormatToString f) sig = Except.ok o := by
  cases f with
  | rs => exact ⟨_, rfl⟩
  | rsv => exact ⟨_, rfl⟩

theorem sodotSign_fst (w : SodotWorld) (k0 : String) (krest : List String)
    (curve : Curve) {sc : SodotCurve}
    (hsc : SodotSigner.adamikCurveToSodotCurve curve = Except.ok sc) (m : Option String) :
    (SodotSigner.sign w (k0 :: krest) curve m).1 =
      Except.ok (SodotSigner.signWithVertexResult w 0) := by
  simp only [SodotSigner.sign, hsc]
  rw [List.length_cons, List.range_succ_eq_map]
  simp only [List.map_cons]

/-- Claim C2: in the keygen ceremony, a non-success response from any of
the 3 peers makes the whole ceremony fail, and nothing is written to the
key cache; the key ids are cached exactly when all 3 peers succeed. -/
theorem c2_keygen_unanimous (env : Env) (w : SodotWorld) (cache : SodotSigner.KeyCache)
    (spec : SignerSpec)
    (henv : jsTruthy (env.lookup (SodotSigner.keyIdsEnvVar spec.curve)) = false)
    (hcurve : spec.curve ≠ Curve.stark) :
    ((∃ i, i < 3 ∧ w.keygenStatus i ≠ 200) →
      (∃ e, (SodotSigner.getOrGenerateKeyIds env w cache spec).1 = Except.error e) ∧
      (SodotSigner.getOrGenerateKeyIds env w cache spec).2.1 = cache) ∧
    ((∀ i, i < 3 → w.keygenStatus i = 200) →
      (SodotSigner.getOrGenerateKeyIds env w cache spec).1 =
        Except.ok [w.initKeyId 0, w.initKeyId 1, w.initKeyId 2] ∧
      (SodotSigner.getOrGenerateKeyIds env w cache spec).2.1 =
        (SodotSigner.getKeyCacheKey spec,
          [w.initKeyId 0, w.initKeyId 1, w.initKeyId 2]) :: cache) := by
  obtain ⟨sc, hsc⟩ := adamikCurve_ok hcurve
  have hmain : SodotSigner.getOrGenerateKeyIds env w cache spec =
      match SodotSigner.keygenVertex w sc with
      | (Except.error e, events) => (Except.error e, cache, events)
      | (Except.ok keyIds, events) =>
        (Except.ok keyIds, (SodotSigner.getKeyCacheKey spec, keyIds) :: cache, events) := by
    simp only [SodotSigner.getOrGenerateKeyIds]
    rw [henv]
    simp only [Bool.false_eq_true, if_false, hsc]
  constructor
  · rintro ⟨i, hi1, hi2⟩
    have hf : ((List.range SodotSigner.nParties).find?
        (fun i => !(w.keygenStatus i = 200))).isSome = true :=
      List.find?_isSome.mpr ⟨i, by simp [SodotSigner.nParties, List.mem_range, hi1], by simp [hi2]⟩
    obtain ⟨j, hj⟩ := Option.isSome_iff_exists.mp hf
    rw [hmain]
    unfold SodotSigner.keygenVertex
    rw [hj]
    exact ⟨⟨_, rfl⟩, rfl⟩
  · intro hall
    have hf : (List.range SodotSigner.nParties).find?
        (fun i => !(w.keygenStatus i = 200)) = Option.none :=
      List.find?_eq_none.mpr fun x hx => by
        simp only [SodotSigner.nParties, List.mem_range] at hx
        simp [hall x hx]
    rw [hmain]
    unfold SodotSigner.keygenVertex
    rw [hf]
    exact ⟨rfl, rfl⟩

/-- Witness for C2: vertex 1 failing its keygen call makes the ceremony
fail with the cache untouched. -/
theorem c2_witness :
    jsTruthy (([] : Env).lookup (SodotSigner.keyIdsEnvVar specSecpSha256.curve)) = false ∧
    (1 < 3 ∧ wKeygenFail1.keygenStatus 1 ≠ 200) ∧
    (∃ e, (SodotSigner.getOrGenerateKeyIds [] wKeygenFail1 [] specSecpSha256).1 =
      Except.error e) ∧
    (SodotSigner.getOrGenerateKeyIds [] wKeygenFail1 [] specSecpSha256).2.1 = [] :=
  ⟨rfl, ⟨by decide, by decide⟩,
   (c2_keygen_unanimous [] wKeygenFail1 [] specSecpSha256 rfl (by decide)).1
     ⟨1, by decide, by decide⟩⟩

/-- Claim C3: with key ids resolved and a supported hash, the signing
result is exactly the first vertex's processed response — unchanged under
any variation of the other vertices — the operation fails with the
MPC-signing error precisely when vertex 0's response is absent, and on
vertex-0 success the returned value is vertex 0's signature. -/
theorem c3_sign_first_peer (env : Env) (w w2 : SodotWorld) (cache : SodotSigner.KeyCache)
    (spec : SignerSpec) (msg : String) (m : Option String)
    (hcurve : spec.curve ≠ Curve.stark)
    (henv : jsTruthy (env.lookup (SodotSigner.keyIdsEnvVar spec.curve)) = true)
    (hm : SodotSigner.adamikHashFunctionToSodotHashMethod spec.hashFunction spec.curve =
      Except.ok m)
    (h0 : w2.signStatus 0 = w.signStatus 0)
    (h1 : w2.signResponse 0 = w.signResponse 0) :
    (SodotSigner.signTransaction env w2 cache spec msg).1 =
      (SodotSigner.signTransaction env w cache spec msg).1 ∧
    ((SodotSigner.signTransaction env w cache spec msg).1 =
        Except.error "Failed to sign message with Vertex" ↔ w.signStatus 0 ≠ 200) ∧
    (w.signStatus 0 = 200 →
      (SodotSigner.signTransaction env w cache spec msg).1 =
        (match w.signResponse 0 with
         | SodotSignatureResponse.single sg => Except.ok sg
         | SodotSignatureResponse.rsv rr ss vv _ =>
           extractSignature (signatureFormatToString spec.signatureFormat)
             ⟨rr, ss, some (natToHex vv)⟩)) := by
  obtain ⟨v, hv, hvne⟩ := jsTruthy_eq_true henv
  obtain ⟨sc, hsc⟩ := adamikCurve_ok hcurve
  set keyIds := (jsSplitChar ',' v.data).map (fun l => jsTrim ⟨l⟩) with hk
  obtain ⟨k0, krest, hkk⟩ : ∃ k0 krest, keyIds = k0 :: krest := by
    rw [hk]
    cases hsp : jsSplitChar ',' v.data with
    | nil => exact absurd hsp (jsSplitChar_ne_nil ',' v.data)
    | cons a l => exact ⟨jsTrim ⟨a⟩, l.map fun x => jsTrim ⟨x⟩, by simp⟩
  have hget : ∀ w3 : SodotWorld, SodotSigner.getOrGenerateKeyIds env w3 cache spec =
      (Except.ok keyIds, (SodotSigner.getKeyCacheKey spec, keyIds) :: cache, []) := by
    intro w3
    simp only [SodotSigner.getOrGenerateKeyIds]
    rw [henv, if_pos rfl, hv]
    rfl
  have hred : ∀ w3 : SodotWorld, (SodotSigner.signTransaction env w3 cache spec msg).1 =
      match SodotSigner.signWithVertexResult w3 0 with
      | Option.none => Except.error "Failed to sign message with Vertex"
      | some (SodotSignatureResponse.single sg) => Except.ok sg
      | some (SodotSignatureResponse.rsv rr ss vv _) =>
        extractSignature (signatureFormatToString spec.signatureFormat)
          ⟨rr, ss, some (natToHex vv)⟩ := by
    intro w3
    cases hsign : SodotSigner.sign w3 keyIds spec.curve m with
    | mk res evs =>
      have hres : res = Except.ok (SodotSigner.signWithVertexResult w3 0) := by
        have h4 := sodotSign_fst w3 k0 krest spec.curve hsc m
        rw [← hkk, hsign] at h4
        exact h4
      subst hres
      simp only [SodotSigner.signTransaction, hget w3, hm, hsign]
      cases SodotSigner.signWithVertexResult w3 0 with
      | none => rfl
      | some resp => cases resp <;> rfl
  refine ⟨?_, ?_, ?_⟩
  · rw [hred w, hred w2]
    unfold SodotSigner.signWithVertexResult
    rw [h0, h1]
  · rw [hred w]
    unfold SodotSigner.signWithVertexResult
    by_cases hs : w.signStatus 0 = 200
    · rw [if_pos hs]
      cases hresp : w.signResponse 0 with
      | single sg => simp [hs]
      | rsv rr ss vv dd =>
        obtain ⟨o, ho⟩ := extractSignature_format_ok spec.signatureFormat
          ⟨rr, ss, some (natToHex vv)⟩
        simp [hs, ho]
    · rw [if_neg hs]
      simp [hs]
  · intro hs
    rw [hred w]
    unfold SodotSigner.signWithVertexResult
    rw [if_pos hs]
    cases w.signResponse 0 <;> rfl

/-- Witness for C3: vertex 0 succeeds with an `{r, s, v}` record while
vertices 1 and 2 fail, yet signing returns vertex 0's serialized
signature. -/
theorem c3_witness :
    jsTruthy (envEcdsaIds.lookup (SodotSigner.keyIdsEnvVar specSecpSha256.curve)) = true ∧
    wPeer0Only.signStatus 0 = 200 ∧ wPeer0Only.signStatus 1 = 500 ∧
    (SodotSigner.signTransaction envEcdsaIds wPeer0Only [] specSecpSha256 "00").1 =
      Except.ok "aabb1b" := by
  have h := c3_sign_first_peer envEcdsaIds wPeer0Only wPeer0Only [] specSecpSha256 "00"
    (some "sha256") (by decide) (by decide) rfl rfl rfl
  refine ⟨by decide, rfl, rfl, ?_⟩
  rw [h.2.2 rfl]
  rfl

/-- Counterexample for C4: for ed25519 the requested sha512_256 hash is
silently ignored and signing succeeds; for secp256k1 with no
pre-provisioned key ids the call does fail with the unsupported-hash
error, but only after the seven network calls of the keygen ceremony
(room creation, three keygen inits, three keygen executions). -/
theorem c4_counterexample :
    (SodotSigner.signTransaction envEdIds wEdSingle [] specEdSha512 "00").1 =
      Except.ok "sig" ∧
    (SodotSigner.signTransaction [] wAllOk [] specSecpSha512 "00").1 =
      Except.error "Unsupported hash algorithm: sha512_256" ∧
    (SodotSigner.signTransaction [] wAllOk [] specSecpSha512 "00").2.2 =
      [NetEvent.createRoom 0, NetEvent.keygenInit 0, NetEvent.keygenInit 1,
       NetEvent.keygenInit 2, NetEvent.keygenCall 0, NetEvent.keygenCall 1,
       NetEvent.keygenCall 2] :=
  ⟨rfl, rfl, rfl⟩

/-- Amended C4: for secp256k1 with hash function sha512_256 or pedersen,
signing fails with UnsupportedHash — before any network call when the
key ids come from the environment, but after the keygen ceremony's
network calls (room creation, keygen inits, keygens) when a ceremony is
required; for ed25519 the hash conversion returns `undefined` for every
hash function, so no UnsupportedHash failure ever occurs. -/
theorem c4_unsupported_hash_amended :
    (∀ (env : Env) (w : SodotWorld) (cache : SodotSigner.KeyCache) (spec : SignerSpec)
        (msg : String),
      spec.curve = Curve.secp256k1 →
      (spec.hashFunction = HashFunction.sha512_256 ∨
        spec.hashFunction = HashFunction.pedersen) →
      jsTruthy (env.lookup "SODOT_EXISTING_ECDSA_KEY_IDS") = true →
      (SodotSigner.signTransaction env w cache spec msg).1 =
        Except.error ("Unsupported hash algorithm: " ++
          hashFunctionToString spec.hashFunction) ∧
      (SodotSigner.signTransaction env w cache spec msg).2.2 = []) ∧
    (∀ (env : Env) (w : SodotWorld) (cache : SodotSigner.KeyCache) (spec : SignerSpec)
        (msg : String),
      spec.curve = Curve.secp256k1 →
      (spec.hashFunction = HashFunction.sha512_256 ∨
        spec.hashFunction = HashFunction.pedersen) →
      jsTruthy (env.lookup "SODOT_EXISTING_ECDSA_KEY_IDS") = false →
      (∀ i, i < 3 → w.keygenStatus i = 200) →
      (SodotSigner.signTransaction env w cache spec msg).1 =
        Except.error ("Unsupported hash algorithm: " ++
          hashFunctionToString spec.hashFunction) ∧
      (SodotSigner.signTransaction env w cache spec msg).2.2 =
        [NetEvent.createRoom 0, NetEvent.keygenInit 0, NetEvent.keygenInit 1,
         NetEvent.keygenInit 2, NetEvent.keygenCall 0, NetEvent.keygenCall 1,
         NetEvent.keygenCall 2]) ∧
    (∀ h : HashFunction,
      SodotSigner.adamikHashFunctionToSodotHashMethod h Curve.ed25519 =
        Except.ok Option.none) := by
  have hhash : ∀ spec : SignerSpec, spec.curve = Curve.secp256k1 →
      (spec.hashFunction = HashFunction.sha512_256 ∨
        spec.hashFunction = HashFunction.pedersen) →
      SodotSigner.adamikHashFunctionToSodotHashMethod spec.hashFunction spec.curve =
        Except.error ("Unsupported hash algorithm: " ++
          hashFunctionToString spec.hashFunction) := by
    intro spec hc hh
    rw [hc]
    rcases hh with h | h <;> rw [h] <;> rfl
  refine ⟨?_, ?_, fun _ => rfl⟩
  · intro env w cache spec msg hc hh henv
    have henv2 : jsTruthy (env.lookup (SodotSigner.keyIdsEnvVar spec.curve)) = true := by
      rw [hc]
      exact henv
    obtain ⟨v, hv, hvne⟩ := jsTruthy_eq_true henv2
    have hget : SodotSigner.getOrGenerateKeyIds env w cache spec =
        (Except.ok ((jsSplitChar ',' v.data).map fun l => jsTrim ⟨l⟩),
         (SodotSigner.getKeyCacheKey spec,
           (jsSplitChar ',' v.data).map fun l => jsTrim ⟨l⟩) :: cache, []) := by
      simp only [SodotSigner.getOrGenerateKeyIds]
      rw [henv2, if_pos rfl, hv]
      rfl
    simp only [SodotSigner.signTransaction, hget, hhash spec hc hh]
    constructor <;> trivial
  · intro env w cache spec msg hc hh henv hall
    have henv2 : jsTruthy (env.lookup (SodotSigner.keyIdsEnvVar spec.curve)) = false := by
      rw [hc]
      exact henv
    have hsc : SodotSigner.adamikCurveToSodotCurve spec.curve = Except.ok SodotCurve.ecdsa := by
      rw [hc]
      rfl
    have hget := getOrGenerateKeyIds_keygen_success env w cache spec henv2 hsc hall
    simp only [SodotSigner.signTransaction, hget, hhash spec hc hh]
    constructor <;> trivial

/-- Witness for C4 (amended): with environment-provided key ids, the
sha512_256 request on secp256k1 fails with no network call issued. -/
theorem c4_witness :
    specSecpSha512.curve = Curve.secp256k1 ∧
    specSecpSha512.hashFunction = HashFunction.sha512_256 ∧
    jsTruthy (envEcdsaIds.lookup "SODOT_EXISTING_ECDSA_KEY_IDS") = true ∧
    (SodotSigner.signTransaction envEcdsaIds wAllOk [] specSecpSha512 "00").1 =
      Except.error ("Unsupported hash algorithm: " ++
        hashFunctionToString specSecpSha512.hashFunction) ∧
    (SodotSigner.signTransaction envEcdsaIds wAllOk [] specSecpSha512 "00").2.2 = [] := by
  have h := c4_unsupported_hash_amended.1 envEcdsaIds wAllOk [] specSecpSha512 "00" rfl
    (Or.inl rfl) (by decide)
  exact ⟨rfl, rfl, by decide, h.1, h.2⟩

end SignerMcp
